import Mathlib

/-!
Verification of the event ingestion, reconciliation and replay engine of the
TrojanHacks deployment-monitoring frontend, against its natural-language
specification.  Definitions are shallow embeddings of the TypeScript source:

* `getEventStatus`, `processEventsToTimeline` — `src/frontend/src/lib/api.ts`
* `stageStatusOf`, `edgesFor`                 — `ReactFlowTimeline` component
* `mergeOutputs` / `wsSetOutputs`             — `app/api/agent-events/route.ts`
                                                and the websocket hook
* cursor / playback operations                — `ReplayControls.tsx`
* `WebSocketManager` transitions              — `src/frontend/src/lib/websocket.ts`

JavaScript strings are modelled as `String`, absent object fields as `Option`,
JS numbers holding epoch seconds or indices as `Int`/`Nat`.
-/

/-- The two tags of the `AgentEvent` union (`type: 'status' | 'trace'`). -/
inductive EvType
  | status
  | trace
deriving DecidableEq, Repr

/-- Classification result of `getEventStatus` in `api.ts`. -/
inductive EvStatus
  | pending
  | running
  | completed
  | failed
deriving DecidableEq, Repr

/-- Shallow embedding of the wire-level event object.  The runtime payloads are
loosely typed (`event as any`), so every field that the classified code reads
is carried as an `Option`, present or absent, on both status and trace
events, exactly as a decoded JSON object would carry it. -/
structure AgentEvent where
  type : EvType
  stage : String
  ts : Int
  message : Option String
  error : Option String
  status : Option String
  subtype : Option String
deriving DecidableEq, Repr

/-- JavaScript truthiness of an optional string field (`if (x)`):
`undefined` and the empty string are falsy. -/
def truthy : Option String → Bool
  | none => false
  | some s => !(s == "")

/-- Does `sub` occur as a contiguous block starting at some position of the
second list?  Helper for `jsIncludes`. -/
def containsFrom (sub : List Char) : List Char → Bool
  | [] => sub.isEmpty
  | c :: rest => List.isPrefixOf sub (c :: rest) || containsFrom sub rest

/-- JavaScript `String.prototype.includes`: substring containment. -/
def jsIncludes (s sub : String) : Bool :=
  containsFrom sub.toList s.toList

/-- JavaScript `String.prototype.toLowerCase`, modelled characterwise. -/
def jsToLower (s : String) : String :=
  String.mk (s.toList.map Char.toLower)

/-- `getEventStatus` from `src/frontend/src/lib/api.ts` (lines 158-177):
status events check `error`, then `status === 'failed'`/`'succeeded'`, then
lower-cased message substrings; trace events check only the subtype. -/
def getEventStatus (e : AgentEvent) : EvStatus :=
  if e.type = EvType.status then
    if truthy e.error then EvStatus.failed
    else if e.status = some "failed" then EvStatus.failed
    else if e.status = some "succeeded" then EvStatus.completed
    else if (match e.message with
             | some m => jsIncludes (jsToLower m) "starting"
             | none => false) then EvStatus.running
    else if (match e.message with
             | some m => jsIncludes (jsToLower m) "completed"
             | none => false) then EvStatus.completed
    else EvStatus.running
  else if e.type = EvType.trace then
    if (match e.subtype with
        | some st => jsIncludes st "end"
        | none => false) then EvStatus.completed
    else if (match e.subtype with
             | some st => jsIncludes st "start"
             | none => false) then EvStatus.running
    else EvStatus.running
  else EvStatus.pending

example :
    getEventStatus
      { type := EvType.status, stage := "clone", ts := 0,
        message := some "Starting repository clone", error := none,
        status := none, subtype := none } = EvStatus.running := by decide

example :
    getEventStatus
      { type := EvType.status, stage := "clone", ts := 0,
        message := some "Clone completed successfully", error := none,
        status := none, subtype := none } = EvStatus.completed := by decide

example :
    getEventStatus
      { type := EvType.trace, stage := "tests", ts := 0,
        message := none, error := none, status := none,
        subtype := some "tool_end" } = EvStatus.completed := by decide

/-! ## Timeline list projection (`processEventsToTimeline`, `api.ts` 144-156) -/

/-- One entry of the presentation timeline, as built by
`processEventsToTimeline`. -/
structure TimelineItem where
  id : String
  timestamp : Int
  type : EvType
  stage : String
  message : Option String
  status : EvStatus
  event : AgentEvent
deriving DecidableEq, Repr

/-- The item built for `event` at arrival position `index`
(`events.map((event, index) => ...)` in `api.ts`).  For a trace event the
message is the template string over `stage` and `subtype`; an absent subtype
renders as the literal `"undefined"`, as a JS template literal would. -/
def mkTimelineItem (index : Nat) (e : AgentEvent) : TimelineItem :=
  { id := toString e.ts ++ "-" ++ toString index
    timestamp := e.ts
    type := e.type
    stage := e.stage
    message :=
      if e.type = EvType.status then e.message
      else some (e.stage ++ " - " ++
        (match e.subtype with | some s => s | none => "undefined"))
    status := getEventStatus e
    event := e }

/-- Comparator order induced by `(a, b) => a.timestamp - b.timestamp`. -/
def byTimestamp (a b : TimelineItem) : Prop :=
  a.timestamp ≤ b.timestamp

instance : DecidableRel byTimestamp := fun a b => Int.decLe _ _

instance : IsTotal TimelineItem byTimestamp :=
  ⟨fun a b => Int.le_total a.timestamp b.timestamp⟩

instance : IsTrans TimelineItem byTimestamp :=
  ⟨fun _ _ _ hab hbc => le_trans hab hbc⟩

/-- `processEventsToTimeline` from `api.ts`: map each event (with its arrival
index) to a `TimelineItem`, then sort by timestamp.  ECMAScript
`Array.prototype.sort` is stable and, under the comparator
`a.timestamp - b.timestamp`, produces the stable non-decreasing reordering,
which `List.insertionSort` with `byTimestamp` computes. -/
def processEventsToTimeline (events : List AgentEvent) : List TimelineItem :=
  List.insertionSort byTimestamp
    (events.enum.map (fun p => mkTimelineItem p.1 p.2))

/-! ## Stage-level status and graph edges (`ReactFlowTimeline`) -/

/-- Stage-level status computed inside `ReactFlowTimeline`'s `useMemo`
(part_001 lines 473-486), for the group of events whose `stage` equals
`stage`.  `"error" in e` is a key-presence test, hence `Option.isSome`;
`events.find(e => e.stage === "final")` is the first final-stage event. -/
def stageStatusOf (events : List AgentEvent) (stage : String) : String :=
  let stageEvents := events.filter (fun e => e.stage == stage)
  let hasError := stageEvents.any (fun e => e.error.isSome)
  let finalEvent := events.find? (fun e => e.stage == "final")
  let isFinalStage := stage == "final"
  if isFinalStage && finalEvent.isSome then
    if (match finalEvent with
        | some fe => fe.status == some "failed"
        | none => false) then "failed" else "completed"
  else if hasError then "failed"
  else if stageEvents.length > 0 then "completed"
  else "pending"

/-- The canonical stage order used by `ReactFlowTimeline`. -/
def pipelineStages : List String :=
  ["clone", "architect", "deps", "tests", "deployment", "incident_monitor", "final"]

/-- React Flow node id of the `k`-th event node of a stage. -/
def eventNodeId (stage : String) (k : Nat) : String :=
  "event-" ++ stage ++ "-" ++ toString k

/-- React Flow node id of a stage header node. -/
def stageNodeId (stage : String) : String :=
  "stage-" ++ stage

/-- An edge of the projected graph (id omitted; it is determined by source
and target). -/
structure EdgeRec where
  source : String
  target : String
  animated : Bool
deriving DecidableEq, Repr

/-- The edges pushed while `ReactFlowTimeline` processes the stage at
position `stageIndex` of the canonical order: nothing for an empty stage;
otherwise the header-to-first-event edge, the intra-stage chain, and — only
when `stageIndex < stages.length - 1` and the immediately following canonical
stage has events — one animated edge from this stage's last event node to the
next stage's header (part_001 lines 543-585). -/
def stageBlockEdges (events : List AgentEvent) (stageIndex : Nat) : List EdgeRec :=
  let stage := pipelineStages.getD stageIndex ""
  let stageEvents := events.filter (fun e => e.stage == stage)
  if stageEvents.length = 0 then []
  else
    ((List.range stageEvents.length).map fun k =>
      if k = 0 then
        { source := stageNodeId stage, target := eventNodeId stage 0,
          animated := false }
      else
        { source := eventNodeId stage (k - 1), target := eventNodeId stage k,
          animated := false })
    ++
    (if stageIndex < pipelineStages.length - 1 then
      let nextStage := pipelineStages.getD (stageIndex + 1) ""
      if 0 < (events.filter (fun e => e.stage == nextStage)).length then
        [{ source := eventNodeId stage (stageEvents.length - 1),
           target := stageNodeId nextStage, animated := true }]
      else []
    else [])

/-- All edges of the projected graph, in the order `ReactFlowTimeline`
pushes them (stages iterated in canonical order). -/
def edgesFor (events : List AgentEvent) : List EdgeRec :=
  ((List.range pipelineStages.length).map (stageBlockEdges events)).flatten

/-! ## Per-stage output accumulation

Two implementations receive output fragments:

* the HTTP callback receiver (`app/api/agent-events/route.ts`, POST, lines
  48-60) merges a fragment into the stored stage mapping key by key with an
  object spread `{...existing, ...fragment}`;
* the websocket hook (`lib/websocket.ts`, second hook variant, `onmessage`
  handler lines 144-153) stores `{...prev, [stage]: outputs}`, replacing the
  whole per-stage object with the incoming fragment.

A JS object with string keys is modelled as `String → Option Val`; an absent
key is `none`. -/

/-- Output values (JS `any`); their structure is irrelevant to the claims. -/
abbrev Val := String

/-- A partial mapping of named output values for one stage. -/
abbrev Fragment := String → Option Val

/-- Mapping from stage name to accumulated outputs of that stage. -/
abbrev StageOutputs := String → String → Option Val

/-- The empty accumulated mapping (`{}`). -/
def emptyOutputs : StageOutputs := fun _ _ => none

/-- Route-store merge (`route.ts` lines 48-60): for each key of the fragment
set the stored value, keys absent from the fragment keep their old value
(`{...existing, ...fragment}`). -/
def mergeOutputs (so : StageOutputs) (stage : String) (frag : Fragment) :
    StageOutputs :=
  fun s k =>
    if s = stage then
      match frag k with
      | some v => some v
      | none => so s k
    else so s k

/-- Websocket-hook merge (`websocket.ts` lines 144-153):
`setAgentOutputs(prev => ({...prev, [stage]: outputs}))` replaces the whole
mapping stored for `stage` with the incoming fragment. -/
def wsSetOutputs (so : StageOutputs) (stage : String) (frag : Fragment) :
    StageOutputs :=
  fun s k => if s = stage then frag k else so s k

/-- Apply a sequence of `(stage, fragment)` merges to `so`, in order, with
the route-store merge. -/
def applyMergesFrom (so : StageOutputs) : List (String × Fragment) → StageOutputs
  | [] => so
  | (stage, frag) :: rest => applyMergesFrom (mergeOutputs so stage frag) rest

/-- Route-store result of a sequence of merges from the empty mapping. -/
def applyMerges (ops : List (String × Fragment)) : StageOutputs :=
  applyMergesFrom emptyOutputs ops

/-- Apply a sequence of `(stage, fragment)` messages to `so`, in order, with
the websocket-hook merge. -/
def applyWsFrom (so : StageOutputs) : List (String × Fragment) → StageOutputs
  | [] => so
  | (stage, frag) :: rest => applyWsFrom (wsSetOutputs so stage frag) rest

/-- Websocket-hook result of a sequence of messages from the empty mapping. -/
def applyWs (ops : List (String × Fragment)) : StageOutputs :=
  applyWsFrom emptyOutputs ops

/-- The value carried for key `k` by the last fragment in `ops` addressed to
`stage` that mentions `k`; `none` when no fragment for `stage` mentions `k`. -/
def lastWrite : List (String × Fragment) → String → String → Option Val
  | [], _, _ => none
  | (st, f) :: rest, stage, k =>
    match lastWrite rest stage k with
    | some v => some v
    | none => if st = stage then f k else none

/-- The last fragment in `ops` addressed to `stage`, if any. -/
def lastFragFor : List (String × Fragment) → String → Option Fragment
  | [], _ => none
  | (st, f) :: rest, stage =>
    match lastFragFor rest stage with
    | some g => some g
    | none => if st = stage then some f else none

/-! ## Replay controller (`ReplayControls.tsx`)

The playback speeds selectable in the UI and the component state the auto-play
effect reads.  The armed single-shot timer is modelled by the full delay it
was armed with (`armed = none` when no timer is pending). -/

/-- The selectable playback speeds `[0.5, 1, 2, 4]`. -/
inductive Speed
  | half
  | one
  | two
  | four
deriving DecidableEq, Repr

/-- The timer delay `1000 / playbackSpeed` in milliseconds. -/
def delayOf : Speed → Nat
  | Speed.half => 2000
  | Speed.one => 1000
  | Speed.two => 500
  | Speed.four => 250

/-- Replay component state: cursor (`currentEventIndex`), speed
(`playbackSpeed`), `isPlaying`, and the delay of the armed timeout. -/
structure ReplayState where
  cursor : Int
  speed : Speed
  playing : Bool
  armed : Option Nat
deriving DecidableEq, Repr

/-- The auto-play `useEffect` (ReplayControls.tsx lines 83-102), whose
dependency list contains `isPlaying`, `currentEventIndex`, `events.length`
and `playbackSpeed`: whenever one of those changes the previous timeout is
cleared (the effect cleanup) and the body re-runs — arming a fresh timeout of
`1000 / playbackSpeed` ms when playing below the last index, auto-stopping
when playing at or past it, and leaving no timer when paused. -/
def runEffect (len : Nat) (s : ReplayState) : ReplayState :=
  if s.playing && decide (s.cursor < (len : Int) - 1) then
    { s with armed := some (delayOf s.speed) }
  else if s.playing then
    { s with playing := false, armed := none }
  else
    { s with armed := none }

/-- `togglePlayback` (lines 31-33): flips `isPlaying` unconditionally; the
effect then reconciles the timer. -/
def togglePlayback (s : ReplayState) : ReplayState :=
  { s with playing := !s.playing }

/-- `changeSpeed` (lines 66-68) followed by the effect re-run its state
update triggers. -/
def changeSpeed (len : Nat) (sp : Speed) (s : ReplayState) : ReplayState :=
  runEffect len { s with speed := sp }

/-- `stepForward` (lines 41-45): advance only below the last index. -/
def stepForward (len : Nat) (c : Int) : Int :=
  if c < (len : Int) - 1 then c + 1 else c

/-- `stepBackward` (lines 47-51): retreat only above zero. -/
def stepBackward (c : Int) : Int :=
  if c > 0 then c - 1 else c

/-- `handleTimelineClick` (lines 71-80) after the pointer fraction has been
rounded: `Math.max(0, Math.min(target, events.length - 1))`.  The rounded
target can be any integer, including negative ones for clicks resolved left
of the track start. -/
def seek (len : Nat) (target : Int) : Int :=
  max 0 (min target ((len : Int) - 1))

/-- One scrubbing/stepping interaction on the cursor. -/
inductive CursorOp
  | fwd
  | bwd
  | seekTo (target : Int)
deriving DecidableEq, Repr

/-- Apply one interaction to the cursor. -/
def applyCursorOp (len : Nat) (c : Int) : CursorOp → Int
  | CursorOp.fwd => stepForward len c
  | CursorOp.bwd => stepBackward c
  | CursorOp.seekTo t => seek len t

/-- Apply a sequence of interactions to the cursor, left to right. -/
def applyCursorOps (len : Nat) (c : Int) : List CursorOp → Int
  | [] => c
  | op :: rest => applyCursorOps len (applyCursorOp len c op) rest

/-! ## WebSocket manager (`lib/websocket.ts`, `WebSocketManager`)

State of one manager plus the observable transport bookkeeping needed by the
reconnect claims: `ws` is the referenced socket (`some true` = OPEN,
`some false` = CONNECTING, `none` = null), `liveCount` counts sockets that
were constructed and never closed, `pendingTimers` counts reconnect callbacks
scheduled by `setTimeout` and not yet fired. -/

/-- `maxReconnectAttempts` in `WebSocketManager`. -/
def maxReconnectAttempts : Nat := 5

/-- Manager state (fields of the `WebSocketManager` class plus transport
bookkeeping). -/
structure MgrState where
  isManualClose : Bool
  reconnectAttempts : Nat
  reconnectDelay : Nat
  ws : Option Bool
  liveCount : Nat
  pendingTimers : Nat
deriving DecidableEq, Repr

/-- A freshly constructed manager. -/
def initMgr : MgrState :=
  { isManualClose := false, reconnectAttempts := 0, reconnectDelay := 1000,
    ws := none, liveCount := 0, pendingTimers := 0 }

/-- `scheduleReconnect` (lines 313-329): no-op when the close was manual or
the attempt budget is exhausted; otherwise increments the attempt counter,
computes `min(reconnectDelay * 2^(attempts-1), 30000)` and arms a timeout
with that delay.  Returns the scheduled delay (or `none`) together with the
new state. -/
def scheduleReconnect (s : MgrState) : Option Nat × MgrState :=
  if s.isManualClose || decide (s.reconnectAttempts ≥ maxReconnectAttempts) then
    (none, s)
  else
    let attempts := s.reconnectAttempts + 1
    let delay := min (s.reconnectDelay * 2 ^ (attempts - 1)) 30000
    (some delay,
      { s with reconnectAttempts := attempts,
               pendingTimers := s.pendingTimers + 1 })

/-- `connect` (lines 241-257): no-op when the referenced socket is OPEN;
otherwise clears the manual-close flag and constructs a new `WebSocket`
(CONNECTING), overwriting the reference without closing any socket it
replaced. -/
def mgrConnect (s : MgrState) : MgrState :=
  if s.ws = some true then s
  else
    { s with isManualClose := false, ws := some false,
             liveCount := s.liveCount + 1 }

/-- `disconnect` (lines 259-266): sets the manual-close flag and closes the
referenced socket if there is one.  No timer handle is stored, so pending
reconnect timeouts are untouched. -/
def mgrDisconnect (s : MgrState) : MgrState :=
  { s with isManualClose := true, ws := none,
           liveCount := s.liveCount - (if s.ws.isSome then 1 else 0) }

/-- The `onclose` handler for a non-application-initiated transport close
(lines 297-305): drops the reference to the now-dead socket and, when the
close was not manual, schedules a reconnect. -/
def mgrHandleClose (s : MgrState) : MgrState :=
  let s1 := { s with ws := none, liveCount := s.liveCount - 1 }
  if !s.isManualClose then (scheduleReconnect s1).2 else s1

/-- A scheduled reconnect timeout firing (lines 324-328): consumes the timer
and calls `connect` unless the manual-close flag is set at firing time. -/
def mgrFireTimer (s : MgrState) : MgrState :=
  if s.pendingTimers = 0 then s
  else
    let s1 := { s with pendingTimers := s.pendingTimers - 1 }
    if !s1.isManualClose then mgrConnect s1 else s1

/-- The delays produced by `n` successive `scheduleReconnect` calls
(successive non-manual closes with no successful open in between). -/
def scheduleTrace : Nat → MgrState → List (Option Nat)
  | 0, _ => []
  | n + 1, s =>
    let r := scheduleReconnect s
    r.1 :: scheduleTrace n r.2

/-! ## Helper lemmas -/

/-- Route-store accumulation, generalized over the starting mapping: the
result for `(stage, k)` is the last write for that pair, falling back to the
starting mapping. -/
theorem applyMergesFrom_eq (so : StageOutputs) (ops : List (String × Fragment))
    (stage k : String) :
    applyMergesFrom so ops stage k =
      match lastWrite ops stage k with
      | some v => some v
      | none => so stage k := by
  induction ops generalizing so with
  | nil => rfl
  | cons op rest ih =>
    obtain ⟨st, f⟩ := op
    show applyMergesFrom (mergeOutputs so st f) rest stage k = _
    rw [ih]
    cases h : lastWrite rest stage k with
    | some v => simp [lastWrite, h]
    | none =>
      simp only [lastWrite, h]
      by_cases hst : st = stage
      · subst hst
        simp [mergeOutputs]
      · simp only [mergeOutputs, hst, if_false]
        rw [if_neg (fun hh => hst hh.symm)]

/-- Websocket-hook accumulation, generalized over the starting mapping: the
stage's mapping is the last fragment sent for that stage, falling back to the
starting mapping. -/
theorem applyWsFrom_eq (so : StageOutputs) (ops : List (String × Fragment))
    (stage k : String) :
    applyWsFrom so ops stage k =
      match lastFragFor ops stage with
      | some f => f k
      | none => so stage k := by
  induction ops generalizing so with
  | nil => rfl
  | cons op rest ih =>
    obtain ⟨st, f⟩ := op
    show applyWsFrom (wsSetOutputs so st f) rest stage k = _
    rw [ih]
    cases h : lastFragFor rest stage with
    | some g => simp [lastFragFor, h]
    | none =>
      simp only [lastFragFor, h]
      by_cases hst : st = stage
      · subst hst
        simp [wsSetOutputs]
      · simp only [wsSetOutputs, hst, if_false]
        rw [if_neg (fun hh => hst hh.symm)]

/-- A single cursor interaction preserves the cursor range invariant. -/
theorem applyCursorOp_range (len : Nat) (hlen : 1 ≤ len) (c : Int)
    (h0 : 0 ≤ c) (h1 : c ≤ (len : Int) - 1) (op : CursorOp) :
    0 ≤ applyCursorOp len c op ∧ applyCursorOp len c op ≤ (len : Int) - 1 := by
  have hl : (1 : Int) ≤ (len : Int) := by exact_mod_cast hlen
  cases op with
  | fwd =>
    simp only [applyCursorOp, stepForward]
    split <;> omega
  | bwd =>
    simp only [applyCursorOp, stepBackward]
    split <;> omega
  | seekTo t =>
    simp only [applyCursorOp, seek]
    omega

/-! ## Claim C1 -/

/-- A fragment carrying only `"a" ↦ "1"`. -/
def fragA : Fragment := fun k => if k = "a" then some "1" else none

/-- A fragment carrying only `"b" ↦ "2"`. -/
def fragB : Fragment := fun k => if k = "b" then some "2" else none

/-- Two successive fragments for the `tests` stage; the second omits key
`"a"`. -/
def c1ops : List (String × Fragment) := [("tests", fragA), ("tests", fragB)]

/-- Claim C1 counterexample: in the websocket hook, after a fragment sets
key `"a"` of stage `tests` and a later fragment for the same stage omits
`"a"`, the key is gone — although the last fragment containing `"a"` carried
the value `"1"`, so the claim demands it remain present with that value. -/
theorem ws_merge_drops_omitted_key :
    applyWs c1ops "tests" "a" = none ∧
    lastWrite c1ops "tests" "a" = some "1" := by
  exact ⟨rfl, rfl⟩

/-- Claim C1 (amended): the HTTP callback store's merge
(`route.ts`, `{...existing, ...fragment}`) satisfies per-key last-write-wins
with retention — `StageOutputs[stage][k]` is exactly the value of the last
fragment for that stage containing `k`, and absent otherwise; the websocket
hook's handler (`{...prev, [stage]: outputs}`) instead replaces the whole
stage mapping, so its final value for a stage is exactly the last fragment
received for that stage, and keys omitted by it do not remain. -/
theorem merge_semantics :
    (∀ (ops : List (String × Fragment)) (stage k : String),
      applyMerges ops stage k = lastWrite ops stage k) ∧
    (∀ (ops : List (String × Fragment)) (stage k : String),
      applyWs ops stage k =
        (match lastFragFor ops stage with
         | some f => f k
         | none => none)) := by
  constructor
  · intro ops stage k
    rw [applyMerges, applyMergesFrom_eq]
    cases lastWrite ops stage k <;> rfl
  · intro ops stage k
    rw [applyWs, applyWsFrom_eq]
    cases lastFragFor ops stage <;> rfl

/-! ## Claim C2 -/

/-- A trace event that carries an explicit error field and an `llm_end`
subtype. -/
def traceErrEv : AgentEvent :=
  { type := EvType.trace, stage := "architect", ts := 10,
    message := none, error := some "boom",
    status := none, subtype := some "llm_end" }

/-- A status event whose error field is present but the empty string. -/
def statusEmptyErrEv : AgentEvent :=
  { type := EvType.status, stage := "deps", ts := 11,
    message := none, error := some "",
    status := none, subtype := none }

/-- Claim C2 counterexample: a trace event carrying an explicit error field
is classified `completed` (by its `llm_end` subtype), not `failed`; and even
a status event carrying an (empty-string) error field is classified
`running`, because the code tests JS truthiness, not field presence. -/
theorem trace_error_not_failed :
    getEventStatus traceErrEv = EvStatus.completed ∧
    EvStatus.completed ≠ EvStatus.failed ∧
    getEventStatus statusEmptyErrEv = EvStatus.running := by
  refine ⟨by decide, by decide, by decide⟩

/-- Claim C2 (amended): the error rule has top precedence only for status
events and only for a truthy (non-empty) error value; the classification of
a trace event never depends on its error field. -/
theorem error_rule_status_only :
    (∀ e : AgentEvent, e.type = EvType.status → truthy e.error = true →
      getEventStatus e = EvStatus.failed) ∧
    (∀ e : AgentEvent, e.type = EvType.trace →
      getEventStatus e = getEventStatus { e with error := none }) := by
  constructor
  · intro e ht he
    simp [getEventStatus, ht, he]
  · intro e ht
    simp [getEventStatus, ht]

/-- A status event that failed with a non-empty error. -/
def statusErrEv : AgentEvent :=
  { type := EvType.status, stage := "tests", ts := 12,
    message := some "Test failed", error := some "TypeError",
    status := none, subtype := none }

/-- Witness for `error_rule_status_only` at concrete events. -/
theorem error_rule_status_only_witness :
    getEventStatus statusErrEv = EvStatus.failed ∧
    getEventStatus
        { type := EvType.trace, stage := "deps", ts := 3, message := none,
          error := some "x", status := none, subtype := some "tool_start" } =
      getEventStatus
        { type := EvType.trace, stage := "deps", ts := 3, message := none,
          error := none, status := none, subtype := some "tool_start" } :=
  ⟨error_rule_status_only.1 statusErrEv rfl (by decide),
   error_rule_status_only.2
     { type := EvType.trace, stage := "deps", ts := 3, message := none,
       error := some "x", status := none, subtype := some "tool_start" } rfl⟩

/-! ## Claim C3 -/

/-- A final-stage event carrying an error but `status: "succeeded"`. -/
def finalErrEv : AgentEvent :=
  { type := EvType.status, stage := "final", ts := 20,
    message := some "Pipeline done", error := some "boom",
    status := some "succeeded", subtype := none }

/-- A first final-stage event with `status: "failed"`. -/
def finalFailedEv : AgentEvent :=
  { type := EvType.status, stage := "final", ts := 21,
    message := some "first", error := none,
    status := some "failed", subtype := none }

/-- A later (terminal) final-stage event with `status: "succeeded"`. -/
def finalSucceededEv : AgentEvent :=
  { type := EvType.status, stage := "final", ts := 22,
    message := some "second", error := none,
    status := some "succeeded", subtype := none }

/-- Claim C3 counterexample.  First conjunct pair: the single final-stage
event carries an error, so the claim demands stage status `failed`, but the
code reports `completed` (the final-stage branch runs before the error
check).  Last conjunct: with two final events whose terminal one says
`succeeded`, the claim demands the terminal event's status (`completed`),
but the code reads the first final event (`failed`). -/
theorem final_stage_error_ignored :
    stageStatusOf [finalErrEv] "final" = "completed" ∧
    ([finalErrEv].filter (fun e => e.stage == "final")).any
      (fun e => e.error.isSome) = true ∧
    stageStatusOf [finalFailedEv, finalSucceededEv] "final" = "failed" := by
  refine ⟨by decide, by decide, by decide⟩

/-- Claim C3 (amended): for a populated non-final stage the status is
`failed` exactly when some event of the stage carries an `error` key, else
`completed`; for the populated `final` stage the status comes from the
*first* final-stage event's `status` field (`failed` iff it equals
`"failed"`, else `completed`), regardless of error fields. -/
theorem stage_status_characterization :
    ∀ (events : List AgentEvent) (stage : String),
      events.filter (fun e => e.stage == stage) ≠ [] →
      ((stage ≠ "final" →
          stageStatusOf events stage =
            (if (events.filter (fun e => e.stage == stage)).any
                (fun e => e.error.isSome) = true then "failed"
             else "completed")) ∧
       (stage = "final" →
          ∃ fe, events.find? (fun e => e.stage == "final") = some fe ∧
            stageStatusOf events stage =
              (if fe.status = some "failed" then "failed"
               else "completed"))) := by
  intro events stage hpop
  constructor
  · intro hne
    have hfin : (stage == "final") = false := by
      simpa using hne
    by_cases herr : (events.filter (fun e => e.stage == stage)).any
        (fun e => e.error.isSome) = true
    · simp [stageStatusOf, hfin, herr]
    · have hlen : 0 < (events.filter (fun e => e.stage == stage)).length :=
        List.length_pos.2 hpop
      simp [stageStatusOf, hfin, herr, hlen]
  · intro hfe
    subst hfe
    have hx : ∃ e ∈ events, (fun e : AgentEvent => e.stage == "final") e := by
      obtain ⟨e, he⟩ := List.exists_mem_of_ne_nil _ hpop
      exact ⟨e, (List.mem_filter.1 he).1, (List.mem_filter.1 he).2⟩
    have hs : (events.find? (fun e => e.stage == "final")).isSome :=
      List.find?_isSome.2 (by simpa using hx)
    obtain ⟨fe, hfe2⟩ := Option.isSome_iff_exists.1 hs
    refine ⟨fe, hfe2, ?_⟩
    by_cases hst : fe.status = some "failed"
    · simp [stageStatusOf, hfe2, hst]
    · simp [stageStatusOf, hfe2, hst]

/-- A plain clone-stage event without error. -/
def cloneOkEv : AgentEvent :=
  { type := EvType.status, stage := "clone", ts := 30,
    message := some "Starting repository clone", error := none,
    status := none, subtype := none }

/-- A plain final-stage success event. -/
def finalOkEv : AgentEvent :=
  { type := EvType.status, stage := "final", ts := 31,
    message := some "Pipeline completed successfully", error := none,
    status := some "succeeded", subtype := none }

/-- Witness for `stage_status_characterization` at concrete event lists. -/
theorem stage_status_characterization_witness :
    (stageStatusOf [cloneOkEv] "clone" =
      (if ([cloneOkEv].filter (fun e => e.stage == "clone")).any
          (fun e => e.error.isSome) = true then "failed"
       else "completed")) ∧
    (∃ fe, [finalOkEv].find? (fun e => e.stage == "final") = some fe ∧
      stageStatusOf [finalOkEv] "final" =
        (if fe.status = some "failed" then "failed" else "completed")) :=
  ⟨(stage_status_characterization [cloneOkEv] "clone" (by decide)).1 (by decide),
   (stage_status_characterization [finalOkEv] "final" (by decide)).2 rfl⟩

/-! ## Claim C4 -/

/-- Claim C4: after a non-manual transport close, six successive
`scheduleReconnect` calls from a fresh manager schedule delays
`1000, 2000, 4000, 8000, 16000` for attempts 1..5 and schedule nothing on
the sixth call; moreover every delay any `scheduleReconnect` call ever
produces is capped at 30000 ms. -/
theorem reconnect_backoff_delays :
    scheduleTrace 6 initMgr =
      [some 1000, some 2000, some 4000, some 8000, some 16000, none] ∧
    ∀ (s : MgrState) (d : Nat) (s2 : MgrState),
      scheduleReconnect s = (some d, s2) → d ≤ 30000 := by
  constructor
  · decide
  · intro s d s2 h
    unfold scheduleReconnect at h
    split at h
    · exact absurd h (by simp)
    · rw [Prod.mk.injEq] at h
      have hd := Option.some.inj h.1
      rw [← hd]
      exact Nat.min_le_right _ _

/-- Witness for `reconnect_backoff_delays` at the first attempt from a fresh
manager. -/
theorem reconnect_backoff_delays_witness : (1000 : Nat) ≤ 30000 :=
  reconnect_backoff_delays.2 initMgr 1000
    { isManualClose := false, reconnectAttempts := 1, reconnectDelay := 1000,
      ws := none, liveCount := 0, pendingTimers := 1 }
    (by decide)

/-! ## Claim C5 -/

/-- Claim C5: for a non-empty event list and a starting cursor within
`[0, length-1]`, any sequence of step-forward, step-backward and scrubber
seeks (with arbitrary rounded pointer targets, including out-of-range ones)
keeps the cursor within `[0, length-1]`. -/
theorem cursor_stays_in_range :
    ∀ (len : Nat), 1 ≤ len →
    ∀ (c : Int), 0 ≤ c → c ≤ (len : Int) - 1 →
    ∀ (ops : List CursorOp),
      0 ≤ applyCursorOps len c ops ∧
      applyCursorOps len c ops ≤ (len : Int) - 1 := by
  intro len hlen c h0 h1 ops
  induction ops generalizing c with
  | nil => exact ⟨h0, h1⟩
  | cons op rest ih =>
    obtain ⟨g0, g1⟩ := applyCursorOp_range len hlen c h0 h1 op
    exact ih _ g0 g1

/-- Witness for `cursor_stays_in_range`: a forward step followed by a far
out-of-range seek on a 2-event list. -/
theorem cursor_stays_in_range_witness :
    0 ≤ applyCursorOps 2 0 [CursorOp.fwd, CursorOp.seekTo 99] ∧
    applyCursorOps 2 0 [CursorOp.fwd, CursorOp.seekTo 99] ≤ (2 : Int) - 1 :=
  cursor_stays_in_range 2 (by decide) 0 (by decide) (by decide)
    [CursorOp.fwd, CursorOp.seekTo 99]

/-! ## Claim C6 -/

/-- Playing state with a 1000 ms timer armed at speed 1. -/
def playingAtOne : ReplayState :=
  { cursor := 0, speed := Speed.one, playing := true, armed := some 1000 }

/-- Claim C6 counterexample: with a 1000 ms timer armed (speed 1, cursor 0
of a 3-event list), selecting speed 4 leaves the armed delay not unchanged —
the effect re-run replaces the armed timer with a fresh full 250 ms one. -/
theorem changeSpeed_rearms_timer :
    (changeSpeed 3 Speed.four playingAtOne).armed = some 250 ∧
    some 250 ≠ playingAtOne.armed := by
  refine ⟨by decide, by decide⟩

/-- Claim C6 (amended): `changeSpeed` updates only the `speed` field, but
`playbackSpeed` is in the auto-play effect's dependency list, so while
playing below the last index the armed timer is cancelled and immediately
re-armed with the full new delay `1000 / newSpeed`; the new speed therefore
takes effect immediately on the in-flight wait, not only at the next tick. -/
theorem changeSpeed_full_new_delay :
    ∀ (len : Nat) (sp : Speed) (s : ReplayState),
      s.playing = true → s.cursor < (len : Int) - 1 →
      (changeSpeed len sp s).armed = some (delayOf sp) ∧
      (changeSpeed len sp s).cursor = s.cursor ∧
      (changeSpeed len sp s).playing = s.playing ∧
      (changeSpeed len sp s).speed = sp := by
  intro len sp s hp hc
  simp [changeSpeed, runEffect, hp, hc]

/-- Witness for `changeSpeed_full_new_delay` at the concrete playing state. -/
theorem changeSpeed_full_new_delay_witness :
    (changeSpeed 3 Speed.two playingAtOne).armed = some (delayOf Speed.two) ∧
    (changeSpeed 3 Speed.two playingAtOne).cursor = playingAtOne.cursor ∧
    (changeSpeed 3 Speed.two playingAtOne).playing = playingAtOne.playing ∧
    (changeSpeed 3 Speed.two playingAtOne).speed = Speed.two :=
  changeSpeed_full_new_delay 3 Speed.two playingAtOne (by decide) (by decide)

/-! ## Claim C7 -/

/-- Idle state with the cursor on the last index of a 1-event list. -/
def idleAtEnd : ReplayState :=
  { cursor := 0, speed := Speed.one, playing := false, armed := none }

/-- Claim C7 counterexample: with the cursor at the last index
(`0 = length - 1` for one event), `togglePlayback` sets the playing flag to
`true` — the flag does become true transiently, before the auto-stop effect
runs. -/
theorem toggle_at_end_transiently_playing :
    ¬((0 : Int) < (1 : Int) - 1) ∧
    (togglePlayback idleAtEnd).playing = true := by
  refine ⟨by decide, by decide⟩

/-- Claim C7 (amended): from `Idle`, `togglePlayback` always raises the
playing flag; the settled state after the auto-play effect is `Playing`
exactly when `cursor < length - 1` (so for an empty list or a cursor at the
last index the effect auto-stops back to `Idle`), and the cursor is never
moved by the toggle. -/
theorem play_transition_characterization :
    ∀ (len : Nat) (s : ReplayState), s.playing = false →
      (togglePlayback s).playing = true ∧
      (runEffect len (togglePlayback s)).playing =
        decide (s.cursor < (len : Int) - 1) ∧
      (runEffect len (togglePlayback s)).cursor = s.cursor := by
  intro len s hp
  refine ⟨by simp [togglePlayback, hp], ?_, ?_⟩
  · by_cases hc : s.cursor < (len : Int) - 1
    · simp [runEffect, togglePlayback, hp, hc]
    · simp [runEffect, togglePlayback, hp, hc]
  · by_cases hc : s.cursor < (len : Int) - 1
    · simp [runEffect, togglePlayback, hp, hc]
    · simp [runEffect, togglePlayback, hp, hc]

/-- Witness for `play_transition_characterization`: playing from the end of
a 1-event list settles back to not playing. -/
theorem play_transition_characterization_witness :
    (togglePlayback idleAtEnd).playing = true ∧
    (runEffect 1 (togglePlayback idleAtEnd)).playing =
      decide (idleAtEnd.cursor < (1 : Int) - 1) ∧
    (runEffect 1 (togglePlayback idleAtEnd)).cursor = idleAtEnd.cursor :=
  play_transition_characterization 1 idleAtEnd (by decide)

/-! ## Claim C8 -/

/-- Claim C8 counterexample trace: connect, non-manual close (which
schedules a reconnect), `disconnect`, then `connect` again before the stale
timer fires.  After `disconnect` the scheduled reconnect is still pending
(nothing was cancelled), and when it fires after the new `connect` it opens
a second transport: two live sockets exist at once. -/
theorem stale_reconnect_opens_second_transport :
    (mgrDisconnect (mgrHandleClose (mgrConnect initMgr))).pendingTimers = 1 ∧
    (mgrFireTimer (mgrConnect (mgrDisconnect (mgrHandleClose
      (mgrConnect initMgr))))).liveCount = 2 := by
  refine ⟨by decide, by decide⟩

/-- Claim C8 (amended): `disconnect` does not cancel a scheduled reconnect —
it only sets the manual-close flag and never touches the timer; while that
flag remains set, a stale reconnect firing is inert (it only consumes
itself, opening no transport and mutating nothing else), but a `connect`
call before the stale timer fires clears the flag and re-enables it. -/
theorem disconnect_suppresses_not_cancels :
    ∀ s : MgrState,
      (mgrDisconnect s).pendingTimers = s.pendingTimers ∧
      (mgrDisconnect s).isManualClose = true ∧
      (s.isManualClose = true →
        mgrFireTimer s = { s with pendingTimers := s.pendingTimers - 1 }) ∧
      (mgrConnect s).isManualClose = (s.ws = some true && s.isManualClose) := by
  intro s
  obtain ⟨man, ra, rd, w, lc, pt⟩ := s
  refine ⟨rfl, rfl, ?_, ?_⟩
  · intro hman
    subst hman
    cases pt with
    | zero => simp [mgrFireTimer]
    | succ n => simp [mgrFireTimer]
  · by_cases hw : w = some true
    · simp [mgrConnect, hw]
    · simp [mgrConnect, hw]

/-- Witness for `disconnect_suppresses_not_cancels` at a manually closed
state with one pending timer. -/
theorem disconnect_suppresses_not_cancels_witness :
    (mgrDisconnect (mgrDisconnect (mgrHandleClose (mgrConnect
      initMgr)))).pendingTimers =
      (mgrDisconnect (mgrHandleClose (mgrConnect initMgr))).pendingTimers ∧
    (mgrDisconnect (mgrDisconnect (mgrHandleClose (mgrConnect
      initMgr)))).isManualClose = true ∧
    ((mgrDisconnect (mgrHandleClose (mgrConnect initMgr))).isManualClose =
        true →
      mgrFireTimer (mgrDisconnect (mgrHandleClose (mgrConnect initMgr))) =
        { mgrDisconnect (mgrHandleClose (mgrConnect initMgr)) with
            pendingTimers :=
              (mgrDisconnect (mgrHandleClose (mgrConnect
                initMgr))).pendingTimers - 1 }) ∧
    (mgrConnect (mgrDisconnect (mgrHandleClose (mgrConnect
      initMgr)))).isManualClose =
      ((mgrDisconnect (mgrHandleClose (mgrConnect initMgr))).ws = some true &&
        (mgrDisconnect (mgrHandleClose (mgrConnect
          initMgr))).isManualClose) :=
  disconnect_suppresses_not_cancels
    (mgrDisconnect (mgrHandleClose (mgrConnect initMgr)))

/-! ## Claim C9 -/

/-- A clone-stage event (graph counterexample input). -/
def cloneEvG : AgentEvent :=
  { type := EvType.status, stage := "clone", ts := 40,
    message := some "cloning", error := none,
    status := none, subtype := none }

/-- A deps-stage event (graph counterexample input); note the architect
stage between clone and deps has no events. -/
def depsEvG : AgentEvent :=
  { type := EvType.status, stage := "deps", ts := 41,
    message := some "deps", error := none,
    status := none, subtype := none }

/-- Claim C9 counterexample: with clone and deps populated and the architect
stage between them empty, the projected graph contains no animated
inter-stage edge at all — empty stages are not skipped, they break the
chain. -/
theorem no_edge_across_empty_stage :
    ((edgesFor [cloneEvG, depsEvG]).filter (fun e => e.animated)) = [] ∧
    [cloneEvG, depsEvG].filter (fun e => e.stage == "clone") ≠ [] ∧
    [cloneEvG, depsEvG].filter (fun e => e.stage == "deps") ≠ [] ∧
    [cloneEvG, depsEvG].filter (fun e => e.stage == "architect") = [] := by
  refine ⟨by decide, by decide, by decide, by decide⟩

/-- Claim C9 (amended): the animated inter-stage edge runs from the last
event node of a populated stage to the header of the *immediately following*
canonical stage, and only when that immediate successor is itself populated;
when the immediate successor has zero events the stage emits no animated
edge at all (empty stages are not skipped). -/
theorem interstage_edge_immediate_next :
    (∀ (events : List AgentEvent) (i : Nat), i + 1 < pipelineStages.length →
      events.filter (fun e => e.stage == pipelineStages.getD i "") ≠ [] →
      events.filter (fun e => e.stage == pipelineStages.getD (i + 1) "") ≠ [] →
      ({ source := eventNodeId (pipelineStages.getD i "")
            ((events.filter
              (fun e => e.stage == pipelineStages.getD i "")).length - 1),
         target := stageNodeId (pipelineStages.getD (i + 1) ""),
         animated := true } : EdgeRec) ∈ edgesFor events) ∧
    (∀ (events : List AgentEvent) (i : Nat), i + 1 < pipelineStages.length →
      events.filter (fun e => e.stage == pipelineStages.getD (i + 1) "") = [] →
      ∀ e ∈ stageBlockEdges events i, e.animated = false) := by
  constructor
  · intro events i hi hcur hnext
    unfold edgesFor
    rw [List.mem_flatten]
    refine ⟨stageBlockEdges events i,
      List.mem_map.2 ⟨i, List.mem_range.2 (by omega), rfl⟩, ?_⟩
    simp only [stageBlockEdges]
    have hlen : ¬((events.filter
        (fun e => e.stage == pipelineStages.getD i "")).length = 0) := by
      simpa [List.length_eq_zero] using hcur
    rw [if_neg hlen]
    apply List.mem_append_right
    rw [if_pos (by omega : i < pipelineStages.length - 1)]
    rw [if_pos (List.length_pos.2 hnext)]
    exact List.mem_singleton.2 rfl
  · intro events i hi hempty e he
    simp only [stageBlockEdges] at he
    by_cases hz : (events.filter
        (fun e => e.stage == pipelineStages.getD i "")).length = 0
    · rw [if_pos hz] at he
      exact absurd he (List.not_mem_nil e)
    · rw [if_neg hz] at he
      rw [if_pos (by omega : i < pipelineStages.length - 1)] at he
      rw [hempty] at he
      simp only [List.length_nil, lt_irrefl, if_false, List.append_nil] at he
      obtain ⟨k, _, hk⟩ := List.mem_map.1 he
      by_cases hk0 : k = 0
      · rw [hk0] at hk
        rw [← hk]
        simp
      · simp only [if_neg hk0] at hk
        rw [← hk]

/-- An architect-stage event immediately following clone. -/
def archEvG : AgentEvent :=
  { type := EvType.status, stage := "architect", ts := 42,
    message := some "analyzing", error := none,
    status := none, subtype := none }

/-- Witness for `interstage_edge_immediate_next`: the animated edge from the
clone stage's last event to the architect header when both are populated,
and the absence of animation for the clone block when architect is empty. -/
theorem interstage_edge_immediate_next_witness :
    (({ source := eventNodeId (pipelineStages.getD 0 "")
          (([cloneEvG, archEvG].filter
            (fun e => e.stage == pipelineStages.getD 0 "")).length - 1),
        target := stageNodeId (pipelineStages.getD 1 ""),
        animated := true } : EdgeRec) ∈ edgesFor [cloneEvG, archEvG]) ∧
    (∀ e ∈ stageBlockEdges [cloneEvG, depsEvG] 0, e.animated = false) :=
  ⟨interstage_edge_immediate_next.1 [cloneEvG, archEvG] 0 (by decide)
      (by decide) (by decide),
   interstage_edge_immediate_next.2 [cloneEvG, depsEvG] 0 (by decide)
      (by decide)⟩

/-! ## Claim C10 -/

/-- An event arriving first but timestamped later. -/
def lateTsEv : AgentEvent :=
  { type := EvType.status, stage := "deps", ts := 5,
    message := some "arrived first", error := none,
    status := none, subtype := none }

/-- An event arriving second but timestamped earlier. -/
def earlyTsEv : AgentEvent :=
  { type := EvType.status, stage := "clone", ts := 3,
    message := some "arrived second", error := none,
    status := none, subtype := none }

/-- Arrival order `[ts 5, ts 3]`: timestamps are not monotone in arrival. -/
def outOfOrderEvents : List AgentEvent := [lateTsEv, earlyTsEv]

/-- Claim C10: `processEventsToTimeline` returns a permutation of one item
per input event — each item carrying its event's stage, type, timestamp and
classification — ordered by non-decreasing timestamp; on a log whose
timestamps are not monotone in arrival order, the presentation order differs
from the arrival order. -/
theorem timeline_perm_sorted :
    (∀ events : List AgentEvent,
      (processEventsToTimeline events).Perm
        (events.enum.map (fun p => mkTimelineItem p.1 p.2)) ∧
      (processEventsToTimeline events).Sorted byTimestamp ∧
      (∀ it ∈ processEventsToTimeline events,
        it.event ∈ events ∧ it.stage = it.event.stage ∧
        it.type = it.event.type ∧ it.timestamp = it.event.ts ∧
        it.status = getEventStatus it.event)) ∧
    ((processEventsToTimeline outOfOrderEvents).map (fun it => it.timestamp) =
        [3, 5] ∧
      outOfOrderEvents.map (fun e => e.ts) = [5, 3]) := by
  constructor
  · intro events
    refine ⟨List.perm_insertionSort byTimestamp _,
      List.sorted_insertionSort byTimestamp _, ?_⟩
    intro it hit
    rw [processEventsToTimeline, List.mem_insertionSort] at hit
    obtain ⟨p, hp, hpi⟩ := List.mem_map.1 hit
    have hsnd : p.2 ∈ events := by
      rw [← List.enum_map_snd events]
      exact List.mem_map.2 ⟨p, hp, rfl⟩
    rw [← hpi]
    exact ⟨hsnd, rfl, rfl, rfl, rfl⟩
  · refine ⟨by decide, by decide⟩

/-- Witness for `timeline_perm_sorted`'s membership clause at the head of
the projected out-of-order demo list. -/
theorem timeline_perm_sorted_witness :
    (mkTimelineItem 1 earlyTsEv).event ∈ outOfOrderEvents ∧
    (mkTimelineItem 1 earlyTsEv).stage = (mkTimelineItem 1 earlyTsEv).event.stage ∧
    (mkTimelineItem 1 earlyTsEv).type = (mkTimelineItem 1 earlyTsEv).event.type ∧
    (mkTimelineItem 1 earlyTsEv).timestamp = (mkTimelineItem 1 earlyTsEv).event.ts ∧
    (mkTimelineItem 1 earlyTsEv).status =
      getEventStatus (mkTimelineItem 1 earlyTsEv).event :=
  (timeline_perm_sorted.1 outOfOrderEvents).2.2 (mkTimelineItem 1 earlyTsEv)
    (by decide)
